import Mathlib

/-!
Shallow embedding of the request-processing pipeline of `src/backend/middleware.py`
(LeetCoach backend).

Modelling conventions:
* Timestamps (`time.time()`) are integers (`ℤ`): the pipeline only ever
  subtracts and compares timestamps and the window size, so exact real-number
  granularity is irrelevant to every claim; each dispatch receives the time
  value(s) it samples as explicit arguments.  Under this model Python's
  `int(...)` (used for the `X-RateLimit-Reset` header) is the identity.
* `rate_limit_store` (a `defaultdict(list)` from client IP to timestamps) is a
  total function `ClientKey → List ℤ`, read and written by explicit state
  passing; a missing key reads as `[]`, exactly like the defaultdict.
* Starlette response headers are a list of (name, value) pairs with
  case-insensitive names; `MutableHeaders.__setitem__` removes every entry with
  the same lowercased name and appends the new pair, `__delitem__` removes every
  entry with that lowercased name, and containment is case-insensitive.
* Python exceptions propagating through a middleware are `Except.error`;
  log emissions (`logger.info` / `logger.warning` / `logger.error`) are
  accumulated in an explicit list of structured entries.
* A stage's continuation (`call_next`) consumes the current store and produces
  the result, the store after the inner stages ran, and the log entries the
  inner stages emitted.
* `setup_middleware` registers, in order: CORSMiddleware, TrustedHostMiddleware
  (only when `not settings.debug`), SecurityHeadersMiddleware,
  LoggingMiddleware, RateLimitMiddleware.  Starlette's `add_middleware` inserts
  at the FRONT of the middleware list, so the last-added middleware is the
  outermost: the composed chain, outer to inner, is
  RateLimit → Logging → SecurityHeaders → TrustedHost → CORS → handler.
-/

abbrev ClientKey := String

/-- The process-wide `rate_limit_store : Dict[str, List[float]]` (a
`defaultdict(list)`): every key reads as a list of timestamps, `[]` when the
key was never written. -/
abbrev Store := ClientKey → List ℤ

def emptyStore : Store := fun _ => []

/-- `store[k] = v` on a Python dict. -/
def updateStore (s : Store) (k : ClientKey) (v : List ℤ) : Store :=
  fun k' => if k' = k then v else s k'

inductive JsonValue where
  | str (s : String)
  | num (n : ℤ)
deriving DecidableEq, Repr

/-- A JSON object body (`none` models a body the core never inspects). -/
abbrev Body := Option (List (String × JsonValue))

structure Response where
  status : ℕ
  headers : List (String × String)
  body : Body
deriving DecidableEq, Repr

structure Request where
  method : String
  url : String
  /-- `request.client.host`, the peer address used as the rate-limit key. -/
  clientHost : String
  /-- the declared origin/host checked by the admission gate. -/
  hostHeader : String
deriving DecidableEq, Repr

/-! ### Starlette header operations (case-insensitive names) -/

/-- ASCII lowercasing of one character (executable stand-in for
`Char.toLower`, which is defined by well-founded recursion and does not
reduce; all header names involved are ASCII). -/
def lowerChar (c : Char) : Char :=
  if 65 ≤ c.toNat ∧ c.toNat ≤ 90 then Char.ofNat (c.toNat + 32) else c

/-- ASCII lowercasing of a header name, as Starlette's `Headers` applies to
every key. -/
def lowerName (s : String) : String := ⟨s.data.map lowerChar⟩

def hasHeader (name : String) (hs : List (String × String)) : Bool :=
  hs.any (fun p => lowerName p.1 == lowerName name)

def getHeader (name : String) (hs : List (String × String)) : Option String :=
  (hs.find? (fun p => lowerName p.1 == lowerName name)).map Prod.snd

/-- `response.headers[name] = value`: drop every pair with the same
lowercased name, then append the new pair. -/
def setHeader (name value : String) (hs : List (String × String)) :
    List (String × String) :=
  hs.filter (fun p => lowerName p.1 != lowerName name) ++ [(name, value)]

/-- `del response.headers[name]`. -/
def delHeader (name : String) (hs : List (String × String)) :
    List (String × String) :=
  hs.filter (fun p => lowerName p.1 != lowerName name)

/-! ### Log entries and stage results -/

inductive LogEntry where
  /-- `logger.info(f"Request: {method} {url} from {client.host}")` -/
  | requestLine (method url clientHost : String)
  /-- `logger.info(f"Response: {status} - {method} {url} took {t}s")` -/
  | responseLine (status : ℕ) (method url : String) (processTime : ℤ)
  /-- `logger.error(f"Error: {e} - {method} {url} took {t}s")` -/
  | errorLine (e : String) (method url : String) (processTime : ℤ)
  /-- `logger.warning(f"Rate limit exceeded for IP: {ip}")` -/
  | rateLimitWarning (clientHost : String)
deriving DecidableEq, Repr

/-- Result of running a (partial) middleware chain: the response or the
propagating exception, the store afterwards, and the log entries emitted. -/
abbrev StageResult := Except String Response × Store × List LogEntry

/-- `call_next`, the continuation handed to a middleware's `dispatch`. -/
abbrev CallNext := Store → StageResult

/-- The terminal business handler (opaque to the pipeline). -/
abbrev Handler := Request → Store → StageResult

/-! ### RateLimitMiddleware -/

/-- The pruning step of `RateLimitMiddleware.dispatch`:
`[t for t in store[ip] if current_time - t < window_size]`. -/
def pruneWindow (window_size current_time : ℤ) (ts : List ℤ) : List ℤ :=
  ts.filter (fun req_time => decide (current_time - req_time < window_size))

/-- Body of the 429 rejection `JSONResponse`. -/
def rateLimitBody (requests_per_minute : ℕ) : Body :=
  some [("error", .str "Rate limit exceeded"),
        ("message", .str ("Too many requests. Limit: " ++
          toString requests_per_minute ++ " per minute")),
        ("retry_after", .num 60)]

def RateLimitMiddleware.dispatch (requests_per_minute : ℕ) (window_size : ℤ)
    (request : Request) (current_time : ℤ) (call_next : CallNext)
    (store : Store) : StageResult :=
  let client_ip := request.clientHost
  let pruned := pruneWindow window_size current_time (store client_ip)
  let store1 := updateStore store client_ip pruned
  if requests_per_minute ≤ pruned.length then
    (.ok { status := 429,
           headers := [("content-type", "application/json")],
           body := rateLimitBody requests_per_minute },
     store1, [.rateLimitWarning client_ip])
  else
    let store2 := updateStore store1 client_ip (pruned ++ [current_time])
    match call_next store2 with
    | (.ok response, store3, log) =>
      let h1 := setHeader "X-RateLimit-Limit" (toString requests_per_minute)
        response.headers
      let h2 := setHeader "X-RateLimit-Remaining"
        (toString ((requests_per_minute : ℤ) - (store3 client_ip).length)) h1
      let h3 := setHeader "X-RateLimit-Reset"
        (toString (current_time + window_size)) h2
      (.ok { response with headers := h3 }, store3, log)
    | (.error e, store3, log) => (.error e, store3, log)

/-! ### SecurityHeadersMiddleware -/

/-- The header rewriting performed by `SecurityHeadersMiddleware.dispatch` on
the response returned by `call_next`. -/
def applySecurityHeaders (headers : List (String × String)) :
    List (String × String) :=
  let h1 := setHeader "X-Content-Type-Options" "nosniff" headers
  let h2 := setHeader "X-Frame-Options" "DENY" h1
  let h3 := setHeader "X-XSS-Protection" "1; mode=block" h2
  let h4 := setHeader "Referrer-Policy" "strict-origin-when-cross-origin" h3
  let h5 := setHeader "Content-Security-Policy" "default-src \x27self\x27" h4
  if hasHeader "server" h5 then delHeader "server" h5 else h5

def SecurityHeadersMiddleware.dispatch (call_next : CallNext)
    (store : Store) : StageResult :=
  match call_next store with
  | (.ok response, s, log) =>
    (.ok { response with headers := applySecurityHeaders response.headers },
     s, log)
  | (.error e, s, log) => (.error e, s, log)

/-! ### LoggingMiddleware -/

def LoggingMiddleware.dispatch (request : Request) (start_time end_time : ℤ)
    (call_next : CallNext) (store : Store) : StageResult :=
  let reqEntry := LogEntry.requestLine request.method request.url
    request.clientHost
  match call_next store with
  | (.ok response, s, log) =>
    let process_time := end_time - start_time
    let h := setHeader "X-Process-Time" (toString process_time)
      response.headers
    (.ok { response with headers := h },
     s, reqEntry :: log ++
       [.responseLine response.status request.method request.url process_time])
  | (.error e, s, log) =>
    let process_time := end_time - start_time
    (.error e, s, reqEntry :: log ++
       [.errorLine e request.method request.url process_time])

/-! ### AdmissionGate -/

/-- Modelled from the spec: the AdmissionGate (Starlette's
`TrustedHostMiddleware`, library code not under `src/`) validates the
request's declared origin/host against `allowed_origins`; on mismatch it
short-circuits with a status-403 rejection response without invoking the
continuation; when `debug` is set the stage is a no-op pass-through (and in
`setup_middleware` it is not even registered). -/
def AdmissionGate.dispatch (allowed_origins : List String) (debug : Bool)
    (request : Request) (call_next : CallNext) (store : Store) : StageResult :=
  if debug then call_next store
  else if request.hostHeader ∈ allowed_origins then call_next store
  else (.ok { status := 403, headers := [], body := none }, store, [])

/-! ### The composed pipeline of `setup_middleware` -/

/-- The chain produced by `setup_middleware`.  `add_middleware` makes the
last-added middleware outermost, so the composed order (outer to inner) is
RateLimit → Logging → SecurityHeaders → TrustedHost → CORS → handler.
The CORS collaborator only decorates responses of cross-origin requests and
never short-circuits a plain request, so it is elided from the chain.
`now` is the time sampled by the rate limiter and the logger's start time,
`t_end` the logger's completion time. -/
def pipeline (requests_per_minute : ℕ) (window_size : ℤ)
    (allowed_origins : List String) (debug : Bool) (handler : Handler)
    (request : Request) (now t_end : ℤ) (store : Store) : StageResult :=
  RateLimitMiddleware.dispatch requests_per_minute window_size request now
    (fun s1 => LoggingMiddleware.dispatch request now t_end
      (fun s2 => SecurityHeadersMiddleware.dispatch
        (fun s3 => AdmissionGate.dispatch allowed_origins debug request
          (fun s4 => handler request s4) s3) s2) s1)
    store

/-! ### The rate limiter's check-and-record core (spec §4.2 view of
`RateLimitMiddleware.dispatch`'s store manipulation) -/

structure Admission where
  allowed : Bool
  remaining : ℕ
  reset_at : ℤ
deriving DecidableEq, Repr

/-- The prune-check-append sequence of `RateLimitMiddleware.dispatch`
(lines 30–50), separated from the response plumbing:
prune, reject without recording when the retained count reaches the limit,
otherwise append `now`. -/
def check_and_record (requests_per_minute : ℕ) (window_size : ℤ)
    (key : ClientKey) (now : ℤ) (store : Store) : Admission × Store :=
  let pruned := pruneWindow window_size now (store key)
  let store1 := updateStore store key pruned
  if requests_per_minute ≤ pruned.length then
    ({ allowed := false, remaining := 0, reset_at := now + window_size },
     store1)
  else
    ({ allowed := true,
       remaining := requests_per_minute - (pruned.length + 1),
       reset_at := now + window_size },
     updateStore store1 key (pruned ++ [now]))

/-- Successive `check_and_record` calls for one key. -/
def runKey (requests_per_minute : ℕ) (window_size : ℤ) (key : ClientKey) :
    List ℤ → Store → List Admission × Store
  | [], store => ([], store)
  | now :: ts, store =>
    let p := check_and_record requests_per_minute window_size key now store
    let r := runKey requests_per_minute window_size key ts p.2
    (p.1 :: r.1, r.2)

/-- Successive `check_and_record` calls for a mix of keys. -/
def runCalls (requests_per_minute : ℕ) (window_size : ℤ) :
    List (ClientKey × ℤ) → Store → Store
  | [], store => store
  | (k, t) :: cs, store =>
    runCalls requests_per_minute window_size cs
      (check_and_record requests_per_minute window_size k t store).2

/-! ### Small executable helpers used by concrete scenarios -/

/-- Extract the response of a stage result (a dummy response when an
exception propagated). -/
def resultResponse (r : StageResult) : Response :=
  match r.1 with
  | .ok resp => resp
  | .error _ => { status := 0, headers := [], body := none }

def bodyGet (b : Body) (k : String) : Option JsonValue :=
  match b with
  | none => none
  | some fields => (fields.find? (fun p => p.1 == k)).map Prod.snd

/-- A closed request used by the concrete scenarios. -/
def scenarioReq : Request :=
  { method := "GET", url := "/api", clientHost := "1.2.3.4",
    hostHeader := "example.com" }

/-- A closed request whose declared host is not in the allowed origins. -/
def evilReq : Request :=
  { method := "GET", url := "/api", clientHost := "5.6.7.8",
    hostHeader := "evil.com" }

def baseResponse : Response := { status := 200, headers := [], body := none }

/-- A continuation that immediately answers 200 and leaves all state alone. -/
def okCont : CallNext := fun s => (.ok baseResponse, s, [])

/-- A handler that immediately answers 200. -/
def okHandler : Handler := fun _ s => (.ok baseResponse, s, [])

/-- A store in which key `"1.2.3.4"` already holds one timestamp. -/
def store0 : Store := updateStore emptyStore "1.2.3.4" [0]

-- sanity checks of the embedding on concrete inputs
example : pruneWindow 60 60 [0] = [] := by decide
example : pruneWindow 60 60 [1, 59] = [1, 59] := by decide
example :
    (check_and_record 2 60 "1.2.3.4" 0 emptyStore).1 =
      { allowed := true, remaining := 1, reset_at := 60 } := by decide
example :
    (check_and_record 2 60 "1.2.3.4" 0 emptyStore).2 "1.2.3.4" = [0] := by
  decide

/-! ### Lemmas about the header operations -/

theorem find?_filter_of_imp {α : Type} (l : List α) (p q : α → Bool)
    (h : ∀ a, q a = true → p a = true) :
    (l.filter p).find? q = l.find? q := by
  induction l with
  | nil => rfl
  | cons a l ih =>
    by_cases hp : p a = true
    · simp only [List.filter_cons, hp, if_pos]
      cases hq : q a
      · simp [List.find?, hq, ih]
      · simp [List.find?, hq]
    · have hq : q a = false := by
        cases hqa : q a
        · rfl
        · exact absurd (h a hqa) (by simp [hp])
      simp only [List.filter_cons, hp]
      simp [List.find?, hq, ih]

theorem getHeader_setHeader_self (n v : String) (hs : List (String × String)) :
    getHeader n (setHeader n v hs) = some v := by
  have h1 : List.find? (fun p => lowerName p.1 == lowerName n)
      (hs.filter (fun p => lowerName p.1 != lowerName n)) = none := by
    rw [List.find?_eq_none]
    intro x hx
    simp only [List.mem_filter, bne_iff_ne, ne_eq] at hx
    simp [hx.2]
  simp [getHeader, setHeader, List.find?_append, h1]

theorem getHeader_setHeader_ne (n m v : String) (hs : List (String × String))
    (h : lowerName n ≠ lowerName m) :
    getHeader n (setHeader m v hs) = getHeader n hs := by
  simp only [getHeader, setHeader, List.find?_append]
  have h2 : List.find? (fun p => lowerName p.1 == lowerName n) [(m, v)]
      = none := by
    have hmn : (lowerName m == lowerName n) = false := by
      simp only [beq_eq_false_iff_ne, ne_eq]
      exact fun hc => h hc.symm
    simp [List.find?, hmn]
  rw [h2, find?_filter_of_imp]
  · simp
  · intro a ha
    have : lowerName a.1 = lowerName n := by simpa using ha
    simp [this, bne_iff_ne, h]

theorem hasHeader_setHeader_self (n m v : String)
    (hs : List (String × String)) (h : lowerName n = lowerName m) :
    hasHeader n (setHeader m v hs) = true := by
  simp [hasHeader, setHeader, List.any_append, h.symm]

theorem hasHeader_setHeader_ne (n m v : String) (hs : List (String × String))
    (h : lowerName n ≠ lowerName m) :
    hasHeader n (setHeader m v hs) = hasHeader n hs := by
  simp only [hasHeader, setHeader, List.any_append, List.any_filter]
  have h2 : ∀ a : String × String,
      ((lowerName a.1 != lowerName m) && (lowerName a.1 == lowerName n))
        = (lowerName a.1 == lowerName n) := by
    intro a
    cases hq : (lowerName a.1 == lowerName n)
    · simp
    · have ha : lowerName a.1 = lowerName n := by simpa using hq
      simp [ha, bne_iff_ne, h]
  have h3 : (lowerName m == lowerName n) = false := by
    simp only [beq_eq_false_iff_ne, ne_eq]
    exact fun hc => h hc.symm
  simp [h2, h3]

/-! ### C4: the pruning step -/

/-- C4: the prune step retains exactly the timestamps whose age relative to
`now` is strictly less than `window_size`; a timestamp exactly
`window_size` old is pruned. -/
theorem C4_prune_exact (window_size current_time t : ℤ) (ts : List ℤ) :
    (t ∈ pruneWindow window_size current_time ts ↔
      t ∈ ts ∧ current_time - t < window_size)
    ∧ (current_time - t = window_size →
        t ∉ pruneWindow window_size current_time ts) := by
  constructor
  · simp [pruneWindow, List.mem_filter]
  · intro h
    simp [pruneWindow, List.mem_filter, h]

/-- Witness for C4 at concrete inputs: a 30-second-old timestamp is kept, a
timestamp exactly 60 seconds old is pruned (window 60). -/
theorem C4_prune_exact_witness :
    ((0 : ℤ) ∈ pruneWindow 60 30 [0] ∧ (0 : ℤ) ∉ pruneWindow 60 60 [0]) :=
  ⟨(C4_prune_exact 60 30 0 [0]).1.mpr (by decide),
   (C4_prune_exact 60 60 0 [0]).2 (by decide)⟩

/-! ### C3: rejection path of the rate limiter -/

/-- C3: when the pruned count has reached `requests_per_minute`, the rate
limiter's dispatch returns the 429 response with the exact documented body,
logs a warning, and records nothing: the key's stored sequence afterwards is
exactly its pruned sequence.  In particular `requests_per_minute = 0`
rejects every request. -/
theorem C3_reject_no_record :
    (∀ (requests_per_minute : ℕ) (window_size : ℤ) (request : Request)
        (current_time : ℤ) (call_next : CallNext) (store : Store),
      requests_per_minute ≤
          (pruneWindow window_size current_time
            (store request.clientHost)).length →
      RateLimitMiddleware.dispatch requests_per_minute window_size request
          current_time call_next store =
        (.ok { status := 429,
               headers := [("content-type", "application/json")],
               body := rateLimitBody requests_per_minute },
         updateStore store request.clientHost
           (pruneWindow window_size current_time (store request.clientHost)),
         [.rateLimitWarning request.clientHost]))
    ∧ (∀ (window_size : ℤ) (request : Request) (current_time : ℤ)
        (call_next : CallNext) (store : Store),
      (RateLimitMiddleware.dispatch 0 window_size request current_time
          call_next store).1 =
        .ok { status := 429,
              headers := [("content-type", "application/json")],
              body := rateLimitBody 0 }) := by
  constructor
  · intro rpm ws req t cn store h
    simp [RateLimitMiddleware.dispatch, h]
  · intro ws req t cn store
    simp [RateLimitMiddleware.dispatch]

/-- Witness for C3: with limit 1, window 60, and one retained timestamp, the
request at `t = 1` is rejected with the documented 429 body and the key's
sequence stays `[0]`. -/
theorem C3_reject_no_record_witness :
    RateLimitMiddleware.dispatch 1 60 scenarioReq 1 okCont store0 =
      (.ok { status := 429,
             headers := [("content-type", "application/json")],
             body := rateLimitBody 1 },
       updateStore store0 scenarioReq.clientHost
         (pruneWindow 60 1 (store0 scenarioReq.clientHost)),
       [.rateLimitWarning scenarioReq.clientHost]) :=
  C3_reject_no_record.1 1 60 scenarioReq 1 okCont store0 (by decide)

/-! ### Reduction lemmas for the rate limiter's two paths -/

/-- The store handed to the continuation on the admit path. -/
def admitStore (window_size : ℤ) (key : ClientKey) (current_time : ℤ)
    (store : Store) : Store :=
  updateStore (updateStore store key (pruneWindow window_size current_time
    (store key))) key
    (pruneWindow window_size current_time (store key) ++ [current_time])

/-- Replace a response's headers. -/
def withHeaders (r : Response) (hs : List (String × String)) : Response :=
  { r with headers := hs }

/-- The three headers the rate limiter sets on an admitted response. -/
def rateLimitHeaders (requests_per_minute : ℕ)
    (window_size current_time : ℤ) (count_after : ℕ)
    (hs : List (String × String)) : List (String × String) :=
  setHeader "X-RateLimit-Reset" (toString (current_time + window_size))
    (setHeader "X-RateLimit-Remaining"
      (toString ((requests_per_minute : ℤ) - count_after))
      (setHeader "X-RateLimit-Limit" (toString requests_per_minute) hs))

theorem RateLimit_dispatch_admitted (requests_per_minute : ℕ) (window_size : ℤ)
    (request : Request) (current_time : ℤ) (call_next : CallNext)
    (store : Store) (r : Response) (s : Store) (lg : List LogEntry)
    (h : (pruneWindow window_size current_time
      (store request.clientHost)).length < requests_per_minute)
    (hcn : call_next (admitStore window_size request.clientHost current_time
      store) = (.ok r, s, lg)) :
    RateLimitMiddleware.dispatch requests_per_minute window_size request
        current_time call_next store =
      (.ok (withHeaders r (rateLimitHeaders requests_per_minute window_size
        current_time (s request.clientHost).length r.headers)), s, lg) := by
  rw [admitStore] at hcn
  simp only [RateLimitMiddleware.dispatch, withHeaders, rateLimitHeaders]
  rw [if_neg (by omega)]
  rw [hcn]

theorem RateLimit_dispatch_admitted_error (requests_per_minute : ℕ)
    (window_size : ℤ) (request : Request) (current_time : ℤ)
    (call_next : CallNext) (store : Store) (e : String) (s : Store)
    (lg : List LogEntry)
    (h : (pruneWindow window_size current_time
      (store request.clientHost)).length < requests_per_minute)
    (hcn : call_next (admitStore window_size request.clientHost current_time
      store) = (.error e, s, lg)) :
    RateLimitMiddleware.dispatch requests_per_minute window_size request
        current_time call_next store = (.error e, s, lg) := by
  rw [admitStore] at hcn
  simp only [RateLimitMiddleware.dispatch]
  rw [if_neg (by omega)]
  rw [hcn]

/-! ### C10: rate-limit headers appear only on admitted responses -/

/-- C10: a 429 short-circuit carries none of the three `X-RateLimit-*`
headers; on the admit path (continuation returned normally) all three are
attached. -/
theorem C10_ratelimit_headers_only_on_admitted :
    (∀ (requests_per_minute : ℕ) (window_size : ℤ) (request : Request)
        (current_time : ℤ) (call_next : CallNext) (store : Store),
      requests_per_minute ≤
          (pruneWindow window_size current_time
            (store request.clientHost)).length →
      hasHeader "X-RateLimit-Limit"
          (resultResponse (RateLimitMiddleware.dispatch requests_per_minute
            window_size request current_time call_next store)).headers = false
      ∧ hasHeader "X-RateLimit-Remaining"
          (resultResponse (RateLimitMiddleware.dispatch requests_per_minute
            window_size request current_time call_next store)).headers = false
      ∧ hasHeader "X-RateLimit-Reset"
          (resultResponse (RateLimitMiddleware.dispatch requests_per_minute
            window_size request current_time call_next store)).headers = false
      ∧ (resultResponse (RateLimitMiddleware.dispatch requests_per_minute
            window_size request current_time call_next store)).status = 429)
    ∧ (∀ (requests_per_minute : ℕ) (window_size : ℤ) (request : Request)
        (current_time : ℤ) (call_next : CallNext) (store : Store)
        (r : Response) (s : Store) (lg : List LogEntry),
      (pruneWindow window_size current_time
          (store request.clientHost)).length < requests_per_minute →
      call_next (admitStore window_size request.clientHost current_time
          store) = (.ok r, s, lg) →
      hasHeader "X-RateLimit-Limit"
          (resultResponse (RateLimitMiddleware.dispatch requests_per_minute
            window_size request current_time call_next store)).headers = true
      ∧ hasHeader "X-RateLimit-Remaining"
          (resultResponse (RateLimitMiddleware.dispatch requests_per_minute
            window_size request current_time call_next store)).headers = true
      ∧ hasHeader "X-RateLimit-Reset"
          (resultResponse (RateLimitMiddleware.dispatch requests_per_minute
            window_size request current_time call_next store)).headers
          = true) := by
  constructor
  · intro rpm ws req t cn store h
    simp only [RateLimitMiddleware.dispatch]
    rw [if_pos h]
    simp only [resultResponse]
    exact ⟨by decide, by decide, by decide, by trivial⟩
  · intro rpm ws req t cn store r s lg h hcn
    rw [RateLimit_dispatch_admitted rpm ws req t cn store r s lg h hcn]
    simp only [resultResponse, withHeaders, rateLimitHeaders]
    refine ⟨?_, ?_, ?_⟩
    · rw [hasHeader_setHeader_ne _ _ _ _ (by decide),
        hasHeader_setHeader_ne _ _ _ _ (by decide),
        hasHeader_setHeader_self _ _ _ _ (by decide)]
    · rw [hasHeader_setHeader_ne _ _ _ _ (by decide),
        hasHeader_setHeader_self _ _ _ _ (by decide)]
    · rw [hasHeader_setHeader_self _ _ _ _ (by decide)]

/-- Witness for C10: with limit 1 and a full window the 429 response carries
no `X-RateLimit-*` header; with limit 2 and an empty store the admitted
response carries all three. -/
theorem C10_ratelimit_headers_only_on_admitted_witness :
    (hasHeader "X-RateLimit-Limit"
      (resultResponse (RateLimitMiddleware.dispatch 1 60 scenarioReq 1 okCont
        store0)).headers = false
     ∧ hasHeader "X-RateLimit-Remaining"
      (resultResponse (RateLimitMiddleware.dispatch 1 60 scenarioReq 1 okCont
        store0)).headers = false
     ∧ hasHeader "X-RateLimit-Reset"
      (resultResponse (RateLimitMiddleware.dispatch 1 60 scenarioReq 1 okCont
        store0)).headers = false
     ∧ (resultResponse (RateLimitMiddleware.dispatch 1 60 scenarioReq 1 okCont
        store0)).status = 429)
    ∧ hasHeader "X-RateLimit-Limit"
      (resultResponse (RateLimitMiddleware.dispatch 2 60 scenarioReq 0 okCont
        emptyStore)).headers = true :=
  ⟨C10_ratelimit_headers_only_on_admitted.1 1 60 scenarioReq 1 okCont store0
    (by decide),
   (C10_ratelimit_headers_only_on_admitted.2 2 60 scenarioReq 0 okCont emptyStore
    baseResponse (admitStore 60 scenarioReq.clientHost 0 emptyStore) []
    (by decide) rfl).1⟩

/-! ### The security-header rewrite in closed form -/

theorem serverIf_eq_del (hs : List (String × String)) :
    (if hasHeader "server" hs then delHeader "server" hs else hs) =
      delHeader "server" hs := by
  cases hsv : hasHeader "server" hs
  · simp only [Bool.false_eq_true, if_false]
    rw [delHeader, eq_comm, List.filter_eq_self]
    intro a ha
    rw [hasHeader, List.any_eq_false] at hsv
    simpa using hsv a ha
  · simp

/-- The pairs `applySecurityHeaders` keeps from the incoming headers: all but
the five security header names and `server`. -/
def keptBySecurity (a : String × String) : Bool :=
  lowerName a.1 != lowerName "server" &&
    (lowerName a.1 != lowerName "Content-Security-Policy" &&
      (lowerName a.1 != lowerName "Referrer-Policy" &&
        (lowerName a.1 != lowerName "X-XSS-Protection" &&
          (lowerName a.1 != lowerName "X-Frame-Options" &&
            lowerName a.1 != lowerName "X-Content-Type-Options"))))

/-- The five pairs `applySecurityHeaders` appends. -/
def securityHeaderTail : List (String × String) :=
  [("X-Content-Type-Options", "nosniff"), ("X-Frame-Options", "DENY"),
   ("X-XSS-Protection", "1; mode=block"),
   ("Referrer-Policy", "strict-origin-when-cross-origin"),
   ("Content-Security-Policy", "default-src \x27self\x27")]

theorem applySecurityHeaders_eq (hs : List (String × String)) :
    applySecurityHeaders hs = hs.filter keptBySecurity ++ securityHeaderTail
    := by
  simp only [applySecurityHeaders, serverIf_eq_del]
  simp only [setHeader, delHeader, List.filter_append, List.filter_filter,
    keptBySecurity, securityHeaderTail]
  simp +decide [List.filter_cons, List.filter_nil]
  rfl

theorem applySecurityHeaders_idem (hs : List (String × String)) :
    applySecurityHeaders (applySecurityHeaders hs) = applySecurityHeaders hs
    := by
  rw [applySecurityHeaders_eq, applySecurityHeaders_eq, List.filter_append,
    List.filter_filter]
  have h1 : securityHeaderTail.filter keptBySecurity = [] := by decide
  have h2 : ∀ l : List (String × String),
      l.filter (fun a => keptBySecurity a && keptBySecurity a) =
        l.filter keptBySecurity := by
    intro l
    apply List.filter_congr
    intro x _
    exact Bool.and_self _
  simp [h1, h2]

theorem getHeader_applySecurityHeaders (n : String)
    (hs : List (String × String))
    (h : ∀ a : String × String, keptBySecurity a = true →
      (lowerName a.1 == lowerName n) = false) :
    getHeader n (applySecurityHeaders hs) = getHeader n securityHeaderTail
    := by
  rw [applySecurityHeaders_eq, getHeader, List.find?_append]
  have h1 : List.find? (fun p => lowerName p.1 == lowerName n)
      (hs.filter keptBySecurity) = none := by
    rw [List.find?_eq_none]
    intro x hx
    simp only [List.mem_filter] at hx
    simp [h x hx.2]
  rw [h1]
  rfl

theorem hasHeader_server_applySecurityHeaders (hs : List (String × String)) :
    hasHeader "server" (applySecurityHeaders hs) = false := by
  rw [applySecurityHeaders_eq]
  simp only [hasHeader, List.any_append, Bool.or_eq_false_iff]
  constructor
  · rw [List.any_eq_false]
    intro x hx
    simp only [List.mem_filter, keptBySecurity, Bool.and_eq_true,
      bne_iff_ne, ne_eq] at hx
    simp [hx.2.1]
  · decide

theorem securityHeaderValues (hs : List (String × String)) :
    getHeader "X-Content-Type-Options" (applySecurityHeaders hs)
      = some "nosniff"
    ∧ getHeader "X-Frame-Options" (applySecurityHeaders hs) = some "DENY"
    ∧ getHeader "X-XSS-Protection" (applySecurityHeaders hs)
      = some "1; mode=block"
    ∧ getHeader "Referrer-Policy" (applySecurityHeaders hs)
      = some "strict-origin-when-cross-origin"
    ∧ getHeader "Content-Security-Policy" (applySecurityHeaders hs)
      = some "default-src \x27self\x27" := by
  refine ⟨?_, ?_, ?_, ?_, ?_⟩ <;>
  · rw [getHeader_applySecurityHeaders]
    · decide
    · intro a ha
      simp only [keptBySecurity, Bool.and_eq_true, bne_iff_ne, ne_eq] at ha
      obtain ⟨h1, h2, h3, h4, h5, h6⟩ := ha
      simp [h1, h2, h3, h4, h5, h6]

/-! ### C9: the security header stage -/

/-- A continuation that raises. -/
def errCont : CallNext := fun s => (.error "boom", s, [])

/-- C9: the SecurityHeaderInjector never rejects and never raises of its
own: it forwards the continuation's response with the five fixed security
headers overwritten (with their fixed values) and the server header removed,
it re-propagates the continuation's exception unchanged, and applying its
header transformation twice equals applying it once. -/
theorem C9_security_injector (call_next : CallNext) (store : Store) :
    (∀ (r : Response) (s : Store) (lg : List LogEntry),
      call_next store = (.ok r, s, lg) →
      SecurityHeadersMiddleware.dispatch call_next store =
        (.ok (withHeaders r (applySecurityHeaders r.headers)), s, lg)
      ∧ getHeader "X-Content-Type-Options" (applySecurityHeaders r.headers)
          = some "nosniff"
      ∧ getHeader "X-Frame-Options" (applySecurityHeaders r.headers)
          = some "DENY"
      ∧ getHeader "X-XSS-Protection" (applySecurityHeaders r.headers)
          = some "1; mode=block"
      ∧ getHeader "Referrer-Policy" (applySecurityHeaders r.headers)
          = some "strict-origin-when-cross-origin"
      ∧ getHeader "Content-Security-Policy" (applySecurityHeaders r.headers)
          = some "default-src \x27self\x27"
      ∧ hasHeader "server" (applySecurityHeaders r.headers) = false)
    ∧ (∀ (e : String) (s : Store) (lg : List LogEntry),
      call_next store = (.error e, s, lg) →
      SecurityHeadersMiddleware.dispatch call_next store = (.error e, s, lg))
    ∧ (∀ hs : List (String × String),
      applySecurityHeaders (applySecurityHeaders hs) =
        applySecurityHeaders hs) := by
  refine ⟨?_, ?_, applySecurityHeaders_idem⟩
  · intro r s lg hcn
    obtain ⟨g1, g2, g3, g4, g5⟩ := securityHeaderValues r.headers
    refine ⟨?_, g1, g2, g3, g4, g5,
      hasHeader_server_applySecurityHeaders r.headers⟩
    simp only [SecurityHeadersMiddleware.dispatch, withHeaders]
    rw [hcn]
  · intro e s lg hcn
    simp only [SecurityHeadersMiddleware.dispatch]
    rw [hcn]

/-- Witness for C9: at a concrete continuation, the stage transforms a 200
response and passes an exception through unchanged. -/
theorem C9_security_injector_witness :
    SecurityHeadersMiddleware.dispatch okCont emptyStore =
      (.ok (withHeaders baseResponse
        (applySecurityHeaders baseResponse.headers)), emptyStore, [])
    ∧ SecurityHeadersMiddleware.dispatch errCont emptyStore =
      (.error "boom", emptyStore, []) :=
  ⟨((C9_security_injector okCont emptyStore).1 baseResponse emptyStore []
      rfl).1,
   (C9_security_injector errCont emptyStore).2.1 "boom" emptyStore [] rfl⟩

/-! ### C2: sequences under the limit are all admitted -/

theorem updateStore_self (s : Store) (k : ClientKey) (v : List ℤ) :
    updateStore s k v k = v := by
  simp [updateStore]

theorem updateStore_other (s : Store) (k k' : ClientKey) (v : List ℤ)
    (h : k' ≠ k) : updateStore s k v k' = s k' := by
  simp [updateStore, h]

theorem runKey_all_admitted (limit : ℕ) (window : ℤ) (key : ClientKey)
    (ts : List ℤ) (done : List ℤ) (store : Store)
    (hstore : store key = done)
    (hwin : ∀ a ∈ done ++ ts, ∀ b ∈ done ++ ts, b - a < window)
    (hlen : (done ++ ts).length ≤ limit) :
    ((runKey limit window key ts store).1.map
        (fun a => (a.allowed, a.remaining)) =
      (List.range ts.length).map
        (fun i => (true, limit - (done.length + i + 1))))
    ∧ (runKey limit window key ts store).2 key = done ++ ts := by
  induction ts generalizing done store with
  | nil => simp [runKey, hstore]
  | cons now ts ih =>
    have hpr : pruneWindow window now (store key) = done := by
      rw [hstore, pruneWindow, List.filter_eq_self]
      intro a ha
      simp only [decide_eq_true_eq]
      exact hwin a (by simp [ha]) now (by simp)
    have hlt : done.length < limit := by
      have h2 := hlen
      simp only [List.length_append, List.length_cons] at h2
      omega
    have hstep : check_and_record limit window key now store =
        ({ allowed := true, remaining := limit - (done.length + 1),
           reset_at := now + window },
         updateStore (updateStore store key done) key (done ++ [now])) := by
      simp only [check_and_record, hpr]
      rw [if_neg (by omega)]
    have hre : (done ++ [now]) ++ ts = done ++ now :: ts := by simp
    have ihx := ih (done ++ [now])
      (updateStore (updateStore store key done) key (done ++ [now]))
      (updateStore_self _ _ _)
      (by rw [hre]; exact hwin)
      (by rw [hre]; exact hlen)
    simp only [runKey, hstep]
    constructor
    · simp only [List.map_cons, List.length_cons, List.range_succ_eq_map,
        List.map_map]
      rw [ihx.1]
      simp only [List.cons.injEq]
      refine ⟨by norm_num, ?_⟩
      simp only [List.map_inj_left, List.mem_range, Function.comp_apply,
        List.length_append, List.length_cons, List.length_nil,
        Prod.mk.injEq, true_and]
      intro i hi
      omega
    · rw [ihx.2]
      simp

/-- First step of the concrete scenario: limit 2, window 60, key
`"1.2.3.4"`, dispatch at t = 0 against a trivial continuation. -/
def scn1 : StageResult :=
  RateLimitMiddleware.dispatch 2 60 scenarioReq 0 okCont emptyStore

/-- Second step, at t = 1, on the store left by `scn1`. -/
def scn2 : StageResult :=
  RateLimitMiddleware.dispatch 2 60 scenarioReq 1 okCont scn1.2.1

/-- Third step, at t = 2, on the store left by `scn2`. -/
def scn3 : StageResult :=
  RateLimitMiddleware.dispatch 2 60 scenarioReq 2 okCont scn2.2.1

/-- C2: any sequence of at most `requests_per_minute` requests from one key,
all within one window of each other, is entirely admitted, each request's
timestamp is appended, and the reported remaining count decreases by one on
each admission (`limit - (i+1)` for the i-th request); concretely, with
limit 2 and window 60, requests at t = 0, 1, 2 yield
allowed(remaining 1), allowed(remaining 0), rejected with the 429 body
carrying `retry_after = 60`. -/
theorem C2_under_limit_all_admitted :
    (∀ (limit : ℕ) (window : ℤ) (key : ClientKey) (ts : List ℤ),
      (∀ a ∈ ts, ∀ b ∈ ts, b - a < window) →
      ts.length ≤ limit →
      ((runKey limit window key ts emptyStore).1.map
          (fun a => (a.allowed, a.remaining)) =
        (List.range ts.length).map (fun i => (true, limit - (i + 1))))
      ∧ (runKey limit window key ts emptyStore).2 key = ts)
    ∧ ((resultResponse scn1).status = 200
      ∧ getHeader "X-RateLimit-Remaining" (resultResponse scn1).headers
          = some "1"
      ∧ (resultResponse scn2).status = 200
      ∧ getHeader "X-RateLimit-Remaining" (resultResponse scn2).headers
          = some "0"
      ∧ (resultResponse scn3).status = 429
      ∧ bodyGet (resultResponse scn3).body "retry_after"
          = some (.num 60)) := by
  constructor
  · intro limit window key ts hwin hlen
    have h := runKey_all_admitted limit window key ts [] emptyStore rfl
      (by simpa using hwin) (by simpa using hlen)
    simpa using h
  · exact ⟨by decide, by decide, by decide, by decide, by decide, by decide⟩

/-- Witness for C2: two requests at t = 0, 1 under limit 2 are both
admitted with remaining 1 then 0, and both timestamps are recorded. -/
theorem C2_under_limit_all_admitted_witness :
    ((runKey 2 60 "1.2.3.4" [0, 1] emptyStore).1.map
        (fun a => (a.allowed, a.remaining)) =
      (List.range 2).map (fun i => (true, 2 - (i + 1))))
    ∧ (runKey 2 60 "1.2.3.4" [0, 1] emptyStore).2 "1.2.3.4" = [0, 1] :=
  C2_under_limit_all_admitted.1 2 60 "1.2.3.4" [0, 1] (by decide) (by decide)

/-! ### C8: store invariants across any call sequence -/

/-- The store invariant: every key's sequence is sorted ascending, holds at
most `limit` entries, and all entries are at most `τ`. -/
def StoreInv (limit : ℕ) (τ : ℤ) (store : Store) : Prop :=
  ∀ k, (store k).Sorted (· ≤ ·) ∧ (store k).length ≤ limit
    ∧ ∀ t ∈ store k, t ≤ τ

theorem check_and_record_snd (limit : ℕ) (window : ℤ) (k : ClientKey)
    (now : ℤ) (store : Store) :
    (check_and_record limit window k now store).2 =
      if limit ≤ (pruneWindow window now (store k)).length then
        updateStore store k (pruneWindow window now (store k))
      else
        updateStore (updateStore store k (pruneWindow window now (store k)))
          k (pruneWindow window now (store k) ++ [now]) := by
  simp only [check_and_record]
  split <;> rfl

theorem check_preserves_inv (limit : ℕ) (window : ℤ) (k : ClientKey)
    (now : ℤ) (store : Store) (τ : ℤ) (hτ : τ ≤ now)
    (h : StoreInv limit τ store) :
    StoreInv limit now (check_and_record limit window k now store).2 := by
  intro k'
  rw [check_and_record_snd]
  by_cases hk : k' = k
  · subst hk
    obtain ⟨hs, hl, hb⟩ := h k'
    have hsp : (pruneWindow window now (store k')).Sorted (· ≤ ·) :=
      hs.filter _
    have hlp : (pruneWindow window now (store k')).length ≤
        (store k').length := List.length_filter_le _ _
    have hbp : ∀ t ∈ pruneWindow window now (store k'), t ≤ now :=
      fun t ht => le_trans (hb t (List.mem_of_mem_filter ht)) hτ
    split
    · rw [updateStore_self]
      exact ⟨hsp, by omega, hbp⟩
    · rw [updateStore_self]
      refine ⟨?_, ?_, ?_⟩
      · rw [List.Sorted, List.pairwise_append]
        refine ⟨hsp, by simp, ?_⟩
        intro a ha b hb2
        simp only [List.mem_singleton] at hb2
        subst hb2
        exact hbp a ha
      · simp only [List.length_append, List.length_singleton]
        omega
      · intro t ht
        rcases List.mem_append.mp ht with h1 | h2
        · exact hbp t h1
        · simp only [List.mem_singleton] at h2
          subst h2
          exact le_refl _
  · obtain ⟨hs, hl, hb⟩ := h k'
    have hout : ∀ t ∈ store k', t ≤ now := fun t ht => le_trans (hb t ht) hτ
    split
    · rw [updateStore_other _ _ _ _ hk]
      exact ⟨hs, hl, hout⟩
    · rw [updateStore_other _ _ _ _ hk, updateStore_other _ _ _ _ hk]
      exact ⟨hs, hl, hout⟩

theorem runCalls_inv (limit : ℕ) (window : ℤ) (cs : List (ClientKey × ℤ))
    (store : Store) (τ : ℤ)
    (hchain : List.Chain (· ≤ ·) τ (cs.map Prod.snd))
    (h : StoreInv limit τ store) :
    ∃ τ', StoreInv limit τ' (runCalls limit window cs store) := by
  induction cs generalizing store τ with
  | nil => exact ⟨τ, h⟩
  | cons c cs ih =>
    obtain ⟨k, t⟩ := c
    simp only [List.map_cons, List.chain_cons] at hchain
    simp only [runCalls]
    exact ih _ t hchain.2
      (check_preserves_inv limit window k t store τ hchain.1 h)

theorem runCalls_append (limit : ℕ) (window : ℤ)
    (l1 l2 : List (ClientKey × ℤ)) (store : Store) :
    runCalls limit window (l1 ++ l2) store =
      runCalls limit window l2 (runCalls limit window l1 store) := by
  induction l1 generalizing store with
  | nil => rfl
  | cons c l1 ih =>
    obtain ⟨k, t⟩ := c
    simp only [List.cons_append, runCalls]
    exact ih _

theorem runCalls_untouched (limit : ℕ) (window : ℤ)
    (cs : List (ClientKey × ℤ)) (store : Store) (k : ClientKey)
    (h : ∀ c ∈ cs, c.1 ≠ k) :
    runCalls limit window cs store k = store k := by
  induction cs generalizing store with
  | nil => rfl
  | cons c cs ih =>
    obtain ⟨k', t⟩ := c
    have hk : k ≠ k' := fun he =>
      h (k', t) (List.mem_cons_self _ _) he.symm
    simp only [runCalls]
    rw [ih _ (fun c hc => h c (List.mem_cons_of_mem _ hc))]
    rw [check_and_record_snd]
    split
    · rw [updateStore_other _ _ _ _ hk]
    · rw [updateStore_other _ _ _ _ hk, updateStore_other _ _ _ _ hk]

theorem check_window_last (limit : ℕ) (window : ℤ) (hw : 0 < window)
    (k : ClientKey) (now : ℤ) (store : Store) :
    ∀ t ∈ (check_and_record limit window k now store).2 k,
      now - t < window := by
  intro t ht
  rw [check_and_record_snd] at ht
  split at ht
  · rw [updateStore_self] at ht
    simpa using (List.mem_filter.mp ht).2
  · rw [updateStore_self] at ht
    rcases List.mem_append.mp ht with h1 | h2
    · simpa using (List.mem_filter.mp h1).2
    · simp only [List.mem_singleton] at h2
      subst h2
      omega

/-- C8: starting from the empty store, after any sequence of
`check_and_record` calls whose times are nondecreasing, every key's stored
sequence is sorted ascending and never longer than `requests_per_minute`,
and after the last check on a key every retained timestamp is strictly
within the window of that check. -/
theorem C8_store_invariants (limit : ℕ) (window : ℤ) (hw : 0 < window)
    (cs : List (ClientKey × ℤ))
    (hchain : List.Chain' (· ≤ ·) (cs.map Prod.snd)) :
    (∀ k, ((runCalls limit window cs emptyStore) k).Sorted (· ≤ ·)
      ∧ ((runCalls limit window cs emptyStore) k).length ≤ limit)
    ∧ (∀ (pre : List (ClientKey × ℤ)) (k : ClientKey) (tk : ℤ)
        (post : List (ClientKey × ℤ)),
      cs = pre ++ (k, tk) :: post → (∀ c ∈ post, c.1 ≠ k) →
      ∀ t ∈ (runCalls limit window cs emptyStore) k, tk - t < window) := by
  constructor
  · have hempty : StoreInv limit 0 emptyStore := by
      intro k
      exact ⟨List.sorted_nil, by simp [emptyStore], by simp [emptyStore]⟩
    have hinv : ∃ τ', StoreInv limit τ'
        (runCalls limit window cs emptyStore) := by
      cases cs with
      | nil => exact ⟨0, hempty⟩
      | cons c cs' =>
        apply runCalls_inv limit window (c :: cs') emptyStore c.2
        · simp only [List.map_cons]
          exact List.Chain.cons le_rfl (by simpa using hchain)
        · intro k
          exact ⟨List.sorted_nil, by simp [emptyStore], by simp [emptyStore]⟩
    obtain ⟨τ', hinv⟩ := hinv
    exact fun k => ⟨(hinv k).1, (hinv k).2.1⟩
  · intro pre k tk post hcs hpost t ht
    subst hcs
    rw [runCalls_append] at ht
    simp only [runCalls] at ht
    rw [runCalls_untouched _ _ _ _ _ hpost] at ht
    exact check_window_last limit window hw k tk _ t ht

/-- Witness for C8: a concrete three-call run (two keys, nondecreasing
times) is sorted, within the limit, and within the window of each key's
last check. -/
theorem C8_store_invariants_witness :
    ((runCalls 2 60 [("1.2.3.4", 0), ("1.2.3.4", 1), ("9.9.9.9", 2)]
        emptyStore) "1.2.3.4").Sorted (· ≤ ·)
    ∧ ((runCalls 2 60 [("1.2.3.4", 0), ("1.2.3.4", 1), ("9.9.9.9", 2)]
        emptyStore) "1.2.3.4").length ≤ 2
    ∧ ∀ t ∈ (runCalls 2 60 [("1.2.3.4", 0), ("1.2.3.4", 1), ("9.9.9.9", 2)]
        emptyStore) "1.2.3.4", (1 : ℤ) - t < 60 :=
  ⟨((C8_store_invariants 2 60 (by decide)
      [("1.2.3.4", 0), ("1.2.3.4", 1), ("9.9.9.9", 2)] (by simp)).1
        "1.2.3.4").1,
   ((C8_store_invariants 2 60 (by decide)
      [("1.2.3.4", 0), ("1.2.3.4", 1), ("9.9.9.9", 2)] (by simp)).1
        "1.2.3.4").2,
   (C8_store_invariants 2 60 (by decide)
      [("1.2.3.4", 0), ("1.2.3.4", 1), ("9.9.9.9", 2)] (by simp)).2
        [("1.2.3.4", 0)] "1.2.3.4" 1 [("9.9.9.9", 2)] rfl
        (by decide)⟩

/-! ### Reduction lemmas for the three terminal paths of the pipeline -/

/-- The gate's 403 rejection response. -/
def gateResponse : Response := { status := 403, headers := [], body := none }

theorem pipeline_reject_429 (limit : ℕ) (ws : ℤ) (allowed : List String)
    (debug : Bool) (handler : Handler) (request : Request) (now t_end : ℤ)
    (store : Store)
    (h : limit ≤ (pruneWindow ws now (store request.clientHost)).length) :
    pipeline limit ws allowed debug handler request now t_end store =
      (.ok { status := 429,
             headers := [("content-type", "application/json")],
             body := rateLimitBody limit },
       updateStore store request.clientHost
         (pruneWindow ws now (store request.clientHost)),
       [.rateLimitWarning request.clientHost]) := by
  simp only [pipeline, RateLimitMiddleware.dispatch]
  rw [if_pos h]

theorem gate_dispatch_reject (allowed : List String) (request : Request)
    (call_next : CallNext) (store : Store)
    (h : request.hostHeader ∉ allowed) :
    AdmissionGate.dispatch allowed false request call_next store =
      (.ok gateResponse, store, []) := by
  simp only [AdmissionGate.dispatch, Bool.false_eq_true, if_false]
  rw [if_neg h]
  rfl

theorem gate_dispatch_pass (allowed : List String) (debug : Bool)
    (request : Request) (call_next : CallNext) (store : Store)
    (h : debug = true ∨ request.hostHeader ∈ allowed) :
    AdmissionGate.dispatch allowed debug request call_next store =
      call_next store := by
  rcases h with hd | ha
  · subst hd
    simp [AdmissionGate.dispatch]
  · simp [AdmissionGate.dispatch, ha]

theorem pipeline_gate_reject (limit : ℕ) (ws : ℤ) (allowed : List String)
    (handler : Handler) (request : Request) (now t_end : ℤ) (store : Store)
    (h1 : (pruneWindow ws now (store request.clientHost)).length < limit)
    (h2 : request.hostHeader ∉ allowed) :
    pipeline limit ws allowed false handler request now t_end store =
      (.ok (withHeaders gateResponse (rateLimitHeaders limit ws now
          (pruneWindow ws now (store request.clientHost) ++ [now]).length
          (setHeader "X-Process-Time" (toString (t_end - now))
            (applySecurityHeaders gateResponse.headers)))),
       admitStore ws request.clientHost now store,
       [LogEntry.requestLine request.method request.url request.clientHost,
        LogEntry.responseLine 403 request.method request.url
          (t_end - now)]) := by
  have hgate := gate_dispatch_reject allowed request
    (fun s4 => handler request s4)
    (admitStore ws request.clientHost now store) h2
  have hsec : SecurityHeadersMiddleware.dispatch
      (fun s3 => AdmissionGate.dispatch allowed false request
        (fun s4 => handler request s4) s3)
      (admitStore ws request.clientHost now store) =
      (.ok (withHeaders gateResponse
        (applySecurityHeaders gateResponse.headers)),
       admitStore ws request.clientHost now store, []) := by
    simp only [SecurityHeadersMiddleware.dispatch, withHeaders]
    rw [hgate]
  have hlogg : LoggingMiddleware.dispatch request now t_end
      (fun s2 => SecurityHeadersMiddleware.dispatch
        (fun s3 => AdmissionGate.dispatch allowed false request
          (fun s4 => handler request s4) s3) s2)
      (admitStore ws request.clientHost now store) =
      (.ok (withHeaders gateResponse
        (setHeader "X-Process-Time" (toString (t_end - now))
          (applySecurityHeaders gateResponse.headers))),
       admitStore ws request.clientHost now store,
       [LogEntry.requestLine request.method request.url request.clientHost,
        LogEntry.responseLine 403 request.method request.url
          (t_end - now)]) := by
    simp only [LoggingMiddleware.dispatch]
    rw [hsec]
    simp [withHeaders, gateResponse]
  have hadm := RateLimit_dispatch_admitted limit ws request now
    (fun s1 => LoggingMiddleware.dispatch request now t_end
      (fun s2 => SecurityHeadersMiddleware.dispatch
        (fun s3 => AdmissionGate.dispatch allowed false request
          (fun s4 => handler request s4) s3) s2) s1)
    store _ _ _ h1 hlogg
  simp only [pipeline]
  rw [hadm]
  simp [withHeaders, admitStore, updateStore]

theorem pipeline_handler_ok (limit : ℕ) (ws : ℤ) (allowed : List String)
    (debug : Bool) (handler : Handler) (request : Request) (now t_end : ℤ)
    (store : Store) (r : Response) (s' : Store) (lg' : List LogEntry)
    (h1 : (pruneWindow ws now (store request.clientHost)).length < limit)
    (hg : debug = true ∨ request.hostHeader ∈ allowed)
    (hh : handler request (admitStore ws request.clientHost now store) =
      (.ok r, s', lg')) :
    pipeline limit ws allowed debug handler request now t_end store =
      (.ok (withHeaders r (rateLimitHeaders limit ws now
          (s' request.clientHost).length
          (setHeader "X-Process-Time" (toString (t_end - now))
            (applySecurityHeaders r.headers)))),
       s',
       LogEntry.requestLine request.method request.url request.clientHost
         :: lg' ++ [LogEntry.responseLine r.status request.method request.url
           (t_end - now)]) := by
  have hgate : AdmissionGate.dispatch allowed debug request
      (fun s4 => handler request s4)
      (admitStore ws request.clientHost now store) = (.ok r, s', lg') := by
    rw [gate_dispatch_pass allowed debug request _ _ hg]
    exact hh
  have hsec : SecurityHeadersMiddleware.dispatch
      (fun s3 => AdmissionGate.dispatch allowed debug request
        (fun s4 => handler request s4) s3)
      (admitStore ws request.clientHost now store) =
      (.ok (withHeaders r (applySecurityHeaders r.headers)), s', lg') := by
    simp only [SecurityHeadersMiddleware.dispatch, withHeaders]
    rw [hgate]
  have hlogg : LoggingMiddleware.dispatch request now t_end
      (fun s2 => SecurityHeadersMiddleware.dispatch
        (fun s3 => AdmissionGate.dispatch allowed debug request
          (fun s4 => handler request s4) s3) s2)
      (admitStore ws request.clientHost now store) =
      (.ok (withHeaders r
        (setHeader "X-Process-Time" (toString (t_end - now))
          (applySecurityHeaders r.headers))),
       s',
       LogEntry.requestLine request.method request.url request.clientHost
         :: lg' ++ [LogEntry.responseLine r.status request.method request.url
           (t_end - now)]) := by
    simp only [LoggingMiddleware.dispatch]
    rw [hsec]
    simp [withHeaders]
  have hadm := RateLimit_dispatch_admitted limit ws request now
    (fun s1 => LoggingMiddleware.dispatch request now t_end
      (fun s2 => SecurityHeadersMiddleware.dispatch
        (fun s3 => AdmissionGate.dispatch allowed debug request
          (fun s4 => handler request s4) s3) s2) s1)
    store _ _ _ h1 hlogg
  simp only [pipeline]
  rw [hadm]
  simp [withHeaders]

/-- `getHeader` for a name that is none of the headers added by the rate
limiter or the logger sees through those wrappers. -/
theorem getHeader_outer_wrappers (n : String) (limit : ℕ) (ws t : ℤ)
    (c : ℕ) (v : String) (hs : List (String × String))
    (h1 : lowerName n ≠ lowerName "X-RateLimit-Reset")
    (h2 : lowerName n ≠ lowerName "X-RateLimit-Remaining")
    (h3 : lowerName n ≠ lowerName "X-RateLimit-Limit")
    (h4 : lowerName n ≠ lowerName "X-Process-Time") :
    getHeader n (rateLimitHeaders limit ws t c
      (setHeader "X-Process-Time" v hs)) = getHeader n hs := by
  simp only [rateLimitHeaders]
  rw [getHeader_setHeader_ne _ _ _ _ h1, getHeader_setHeader_ne _ _ _ _ h2,
    getHeader_setHeader_ne _ _ _ _ h3, getHeader_setHeader_ne _ _ _ _ h4]

/-! ### C1: placement of the security headers in the composed pipeline -/

/-- A second concrete handler, used to exhibit handler-independence. -/
def altHandler : Handler :=
  fun _ s => (.ok { status := 201, headers := [], body := none }, s, [])

/-- Counterexample to C1 as stated: a request over the limit is answered
429 by the outermost RateLimiter; the response carries no
`X-Content-Type-Options` header (the SecurityHeaderInjector sits inside and
never sees it), and the AccessLogger never logs it (the only log entry is
the rate limiter's warning). -/
theorem C1_counterexample :
    (resultResponse (pipeline 1 60 ["example.com"] false okHandler
      scenarioReq 1 1 store0)).status = 429
    ∧ hasHeader "X-Content-Type-Options"
        (resultResponse (pipeline 1 60 ["example.com"] false okHandler
          scenarioReq 1 1 store0)).headers = false
    ∧ (pipeline 1 60 ["example.com"] false okHandler scenarioReq 1 1
        store0).2.2 = [.rateLimitWarning "1.2.3.4"] := by decide

/-- C1 (amended): in the pipeline composed by `setup_middleware` the
RateLimiter is the outermost stage and the SecurityHeaderInjector sits
inside the AccessLogger and the RateLimiter, wrapping only the
AdmissionGate and the business handler.  Hence 403 gate rejections and
normal handler responses carry the five fixed security headers, but a 429
rate-limit short-circuit carries none of them. -/
theorem C1_security_header_placement :
    (∀ (limit : ℕ) (ws : ℤ) (allowed : List String) (debug : Bool)
        (handler : Handler) (request : Request) (now t_end : ℤ)
        (store : Store),
      limit ≤ (pruneWindow ws now (store request.clientHost)).length →
      (resultResponse (pipeline limit ws allowed debug handler request now
          t_end store)).status = 429
      ∧ ∀ n ∈ ["X-Content-Type-Options", "X-Frame-Options",
          "X-XSS-Protection", "Referrer-Policy", "Content-Security-Policy"],
        hasHeader n (resultResponse (pipeline limit ws allowed debug handler
          request now t_end store)).headers = false)
    ∧ (∀ (limit : ℕ) (ws : ℤ) (allowed : List String) (handler : Handler)
        (request : Request) (now t_end : ℤ) (store : Store),
      (pruneWindow ws now (store request.clientHost)).length < limit →
      request.hostHeader ∉ allowed →
      (resultResponse (pipeline limit ws allowed false handler request now
          t_end store)).status = 403
      ∧ getHeader "X-Content-Type-Options"
          (resultResponse (pipeline limit ws allowed false handler request
            now t_end store)).headers = some "nosniff"
      ∧ getHeader "X-Frame-Options"
          (resultResponse (pipeline limit ws allowed false handler request
            now t_end store)).headers = some "DENY"
      ∧ getHeader "X-XSS-Protection"
          (resultResponse (pipeline limit ws allowed false handler request
            now t_end store)).headers = some "1; mode=block"
      ∧ getHeader "Referrer-Policy"
          (resultResponse (pipeline limit ws allowed false handler request
            now t_end store)).headers
          = some "strict-origin-when-cross-origin"
      ∧ getHeader "Content-Security-Policy"
          (resultResponse (pipeline limit ws allowed false handler request
            now t_end store)).headers = some "default-src \x27self\x27")
    ∧ (∀ (limit : ℕ) (ws : ℤ) (allowed : List String) (debug : Bool)
        (handler : Handler) (request : Request) (now t_end : ℤ)
        (store : Store) (r : Response) (s' : Store) (lg' : List LogEntry),
      (pruneWindow ws now (store request.clientHost)).length < limit →
      (debug = true ∨ request.hostHeader ∈ allowed) →
      handler request (admitStore ws request.clientHost now store) =
        (.ok r, s', lg') →
      (resultResponse (pipeline limit ws allowed debug handler request now
          t_end store)).status = r.status
      ∧ getHeader "X-Content-Type-Options"
          (resultResponse (pipeline limit ws allowed debug handler request
            now t_end store)).headers = some "nosniff"
      ∧ getHeader "X-Frame-Options"
          (resultResponse (pipeline limit ws allowed debug handler request
            now t_end store)).headers = some "DENY"
      ∧ getHeader "X-XSS-Protection"
          (resultResponse (pipeline limit ws allowed debug handler request
            now t_end store)).headers = some "1; mode=block"
      ∧ getHeader "Referrer-Policy"
          (resultResponse (pipeline limit ws allowed debug handler request
            now t_end store)).headers
          = some "strict-origin-when-cross-origin"
      ∧ getHeader "Content-Security-Policy"
          (resultResponse (pipeline limit ws allowed debug handler request
            now t_end store)).headers = some "default-src \x27self\x27") := by
  refine ⟨?_, ?_, ?_⟩
  · intro limit ws allowed debug handler request now t_end store h
    rw [pipeline_reject_429 limit ws allowed debug handler request now t_end
      store h]
    simp only [resultResponse]
    refine ⟨by trivial, ?_⟩
    intro n hn
    fin_cases hn <;> decide
  · intro limit ws allowed handler request now t_end store hadm hna
    rw [pipeline_gate_reject limit ws allowed handler request now t_end
      store hadm hna]
    simp only [resultResponse, withHeaders]
    obtain ⟨g1, g2, g3, g4, g5⟩ := securityHeaderValues gateResponse.headers
    refine ⟨by trivial, ?_, ?_, ?_, ?_, ?_⟩ <;>
      rw [getHeader_outer_wrappers _ _ _ _ _ _ _ (by decide) (by decide)
        (by decide) (by decide)]
    exacts [g1, g2, g3, g4, g5]
  · intro limit ws allowed debug handler request now t_end store r s' lg'
      hadm hg hh
    rw [pipeline_handler_ok limit ws allowed debug handler request now t_end
      store r s' lg' hadm hg hh]
    simp only [resultResponse, withHeaders]
    obtain ⟨g1, g2, g3, g4, g5⟩ := securityHeaderValues r.headers
    refine ⟨by trivial, ?_, ?_, ?_, ?_, ?_⟩ <;>
      rw [getHeader_outer_wrappers _ _ _ _ _ _ _ (by decide) (by decide)
        (by decide) (by decide)]
    exacts [g1, g2, g3, g4, g5]

/-- Witness for C1 (amended) at concrete inputs: a 429 without security
headers, a 403 with them, and an admitted 200 with them. -/
theorem C1_security_header_placement_witness :
    (resultResponse (pipeline 1 60 ["example.com"] false okHandler
      scenarioReq 1 1 store0)).status = 429
    ∧ (resultResponse (pipeline 5 60 ["example.com"] false okHandler evilReq
        0 0 emptyStore)).status = 403
    ∧ getHeader "X-Content-Type-Options"
        (resultResponse (pipeline 5 60 ["example.com"] false okHandler
          evilReq 0 0 emptyStore)).headers = some "nosniff"
    ∧ getHeader "X-Content-Type-Options"
        (resultResponse (pipeline 5 60 ["example.com"] false okHandler
          scenarioReq 0 0 emptyStore)).headers = some "nosniff" :=
  ⟨(C1_security_header_placement.1 1 60 ["example.com"] false okHandler
      scenarioReq 1 1 store0 (by decide)).1,
   (C1_security_header_placement.2.1 5 60 ["example.com"] okHandler evilReq
      0 0 emptyStore (by decide) (by decide)).1,
   (C1_security_header_placement.2.1 5 60 ["example.com"] okHandler evilReq
      0 0 emptyStore (by decide) (by decide)).2.1,
   (C1_security_header_placement.2.2 5 60 ["example.com"] false okHandler
      scenarioReq 0 0 emptyStore baseResponse
      (admitStore 60 scenarioReq.clientHost 0 emptyStore) []
      (by decide) (Or.inr (by decide)) rfl).2.1⟩

/-! ### C6: gate rejection and rate-limiter state -/

/-- Counterexample to C6 as stated: with `debug = false` and an origin not
in `allowed_origins`, the pipeline does answer 403, but the rate-limit
sequence for the client key is NOT unchanged — it grows from `[]` to `[0]`,
because the RateLimiter is outermost and records the request before the
gate rejects it. -/
theorem C6_counterexample :
    (resultResponse (pipeline 5 60 ["example.com"] false okHandler evilReq
      0 0 emptyStore)).status = 403
    ∧ (pipeline 5 60 ["example.com"] false okHandler evilReq 0 0
        emptyStore).2.1 "5.6.7.8" = [0]
    ∧ emptyStore "5.6.7.8" = [] := by decide

/-- C6 (amended): with debug off and an origin outside `allowed_origins`
the gate short-circuits with a 403 and the business handler is never
invoked (the pipeline result is independent of the handler), but the
rate-limit timestamp sequence for the client key is changed: the
RateLimiter runs outside the gate, so the request's timestamp is appended
before the gate rejects. -/
theorem C6_gate_reject_but_state_changed (limit : ℕ) (ws : ℤ)
    (allowed : List String) (handler handler' : Handler) (request : Request)
    (now t_end : ℤ) (store : Store)
    (h1 : (pruneWindow ws now (store request.clientHost)).length < limit)
    (h2 : request.hostHeader ∉ allowed) :
    pipeline limit ws allowed false handler request now t_end store =
      pipeline limit ws allowed false handler' request now t_end store
    ∧ (resultResponse (pipeline limit ws allowed false handler request now
        t_end store)).status = 403
    ∧ (pipeline limit ws allowed false handler request now t_end
        store).2.1 request.clientHost =
        pruneWindow ws now (store request.clientHost) ++ [now] := by
  refine ⟨?_, ?_, ?_⟩
  · rw [pipeline_gate_reject limit ws allowed handler request now t_end
      store h1 h2,
      pipeline_gate_reject limit ws allowed handler' request now t_end
      store h1 h2]
  · rw [pipeline_gate_reject limit ws allowed handler request now t_end
      store h1 h2]
    rfl
  · rw [pipeline_gate_reject limit ws allowed handler request now t_end
      store h1 h2]
    simp [admitStore, updateStore]

/-- Witness for C6 (amended) at concrete inputs. -/
theorem C6_gate_reject_but_state_changed_witness :
    pipeline 5 60 ["example.com"] false okHandler evilReq 0 0 emptyStore =
      pipeline 5 60 ["example.com"] false altHandler evilReq 0 0 emptyStore
    ∧ (resultResponse (pipeline 5 60 ["example.com"] false okHandler evilReq
        0 0 emptyStore)).status = 403
    ∧ (pipeline 5 60 ["example.com"] false okHandler evilReq 0 0
        emptyStore).2.1 evilReq.clientHost =
        pruneWindow 60 0 (emptyStore evilReq.clientHost) ++ [0] :=
  C6_gate_reject_but_state_changed 5 60 ["example.com"] okHandler altHandler
    evilReq 0 0 emptyStore (by decide) (by decide)

/-! ### C7: the logging stage -/

def isCompletionRecord : LogEntry → Bool
  | .responseLine _ _ _ _ => true
  | .errorLine _ _ _ _ => true
  | _ => false

/-- Number of completion-shaped structured records (a status or error
indicator together with the duration) in a log. -/
def completionCount (lg : List LogEntry) : ℕ :=
  (lg.filter isCompletionRecord).length

/-- C7: the AccessLogger emits exactly one completion-shaped structured
record per request it processes: on an exception it emits one error record
with the duration and re-raises the same exception unchanged; on a normal
return it emits one record with the status and duration and attaches the
duration as the `X-Process-Time` header.  (It additionally emits one
request-received info line before calling the continuation, visible in the
equations below.) -/
theorem C7_logging_exactly_one_record (request : Request)
    (start_time end_time : ℤ) (call_next : CallNext) (store : Store) :
    (∀ (e : String) (s : Store) (lg : List LogEntry),
      call_next store = (.error e, s, lg) →
      LoggingMiddleware.dispatch request start_time end_time call_next store =
        (.error e, s,
          LogEntry.requestLine request.method request.url request.clientHost
            :: lg ++ [LogEntry.errorLine e request.method request.url
              (end_time - start_time)]))
    ∧ (∀ (r : Response) (s : Store) (lg : List LogEntry),
      call_next store = (.ok r, s, lg) →
      LoggingMiddleware.dispatch request start_time end_time call_next store =
        (.ok (withHeaders r (setHeader "X-Process-Time"
            (toString (end_time - start_time)) r.headers)), s,
          LogEntry.requestLine request.method request.url request.clientHost
            :: lg ++ [LogEntry.responseLine r.status request.method
              request.url (end_time - start_time)]))
    ∧ (∀ (res : Except String Response) (s : Store) (lg : List LogEntry),
      call_next store = (res, s, lg) →
      completionCount (LoggingMiddleware.dispatch request start_time end_time
          call_next store).2.2 = completionCount lg + 1) := by
  refine ⟨?_, ?_, ?_⟩
  · intro e s lg hcn
    simp only [LoggingMiddleware.dispatch]
    rw [hcn]
  · intro r s lg hcn
    simp only [LoggingMiddleware.dispatch, withHeaders]
    rw [hcn]
  · intro res s lg hcn
    cases res with
    | ok r =>
      simp only [LoggingMiddleware.dispatch]
      rw [hcn]
      simp [completionCount, isCompletionRecord, List.filter_append,
        List.filter_cons]
    | error e =>
      simp only [LoggingMiddleware.dispatch]
      rw [hcn]
      simp [completionCount, isCompletionRecord, List.filter_append,
        List.filter_cons]

/-- Witness for C7 at concrete continuations: an exception is logged once
and re-raised, a normal response is logged once and stamped. -/
theorem C7_logging_exactly_one_record_witness :
    LoggingMiddleware.dispatch scenarioReq 0 3 errCont emptyStore =
      (.error "boom", emptyStore,
        LogEntry.requestLine "GET" "/api" "1.2.3.4"
          :: [] ++ [LogEntry.errorLine "boom" "GET" "/api" 3])
    ∧ completionCount
        (LoggingMiddleware.dispatch scenarioReq 0 3 okCont
          emptyStore).2.2 = completionCount [] + 1 :=
  ⟨by
    have h := (C7_logging_exactly_one_record scenarioReq 0 3 errCont
      emptyStore).1 "boom" emptyStore [] rfl
    simpa [scenarioReq] using h,
   (C7_logging_exactly_one_record scenarioReq 0 3 okCont
      emptyStore).2.2 (.ok baseResponse) emptyStore [] rfl⟩
